import Mathlib

/-!
# s3spectre — verification of the drift-classification engine

A shallow embedding of the s3spectre Go sources (scan-mode analyzer,
discovery-mode analyzer, baseline diff, retry wrapper, region resolver and
bucket inspector) together with theorems settling the specification claims.

Conventions of the embedding:
* Go `int` fields become `Int`; counters that only ever increase become `Nat`.
* Go maps are represented as association lists carrying an explicit iteration
  order, since Go `range` over a map visits keys in an unspecified order; nil
  vs. present maps/pointers become `Option`.
* `time.Time` fields are not modelled; the derived day counts
  (`AgeInDays`, `DaysSinceActivity`, `DaysSinceModified`) are kept.
* Remote calls are modelled by an oracle (`S3World`) giving each call's final
  outcome (after the retry envelope); the retry policy itself is modelled
  separately over attempt-indexed outcomes.  Backoff sleeps and context
  cancellation are timing behaviour and are not modelled.
-/

set_option maxHeartbeats 1000000

namespace S3Spectre

/-- Classification status (Go: `analyzer.Status` string constants). -/
inductive Status where
  | ok
  | missingBucket
  | unusedBucket
  | missingPrefix
  | stalePrefix
  | versionSprawl
  | lifecycleMisconfig
  | risky
  | inactive
deriving DecidableEq, Repr

/-- Go: `s3.EncryptionInfo`. -/
structure EncryptionInfo where
  enabled : Bool
  algorithm : String
  kmsMasterKeyID : String
deriving DecidableEq, Repr

/-- Go: `s3.PublicAccessInfo`. -/
structure PublicAccessInfo where
  isPublic : Bool
  blockPublicAcls : Bool
  ignorePublicAcls : Bool
  blockPublicPolicy : Bool
  restrictPublicBuckets : Bool
deriving DecidableEq, Repr

/-- Go: `s3.PrefixInfo` (`pfx` is the Go `Prefix` field; the `LatestModified`
timestamp is represented only through `daysSinceModified`). -/
structure PrefixInfo where
  pfx : String
  existsFlag : Bool
  objectCount : Int
  daysSinceModified : Int
deriving DecidableEq, Repr

/-- Go: `s3.BucketInfo` (`existsFlag` is the Go `Exists` field, which is a
keyword in Lean; `tags` is the nil-able Go map as an association list). -/
structure BucketInfo where
  name : String
  existsFlag : Bool
  region : String
  daysSinceActivity : Int
  ageInDays : Int
  versioningEnabled : Bool
  lifecycleRules : Int
  prefixes : List PrefixInfo
  tags : Option (List (String × String))
  isEmpty : Bool
  objectCount : Int
  totalSize : Int
  totalVersionSize : Int
  versionCount : Int
  encryption : Option EncryptionInfo
  publicAccess : Option PublicAccessInfo
  error : String
deriving DecidableEq, Repr

/-- Go: `scanner.Reference` (`pfx` is the Go `Prefix` field). -/
structure Reference where
  bucket : String
  pfx : String
  versionID : String
  file : String
  line : Int
  context : String
deriving DecidableEq, Repr

/-- Go: `analyzer.Config`. -/
structure Config where
  staleThresholdDays : Int
  unusedThresholdDays : Int
  checkUnused : Bool
  unusedScoreThreshold : Int
deriving DecidableEq, Repr

/-- Go: `analyzer.UnusedScore`. -/
structure UnusedScore where
  total : Int
  reasons : List String
  isUnused : Bool
  notInCode : Int
  empty : Int
  oldBucket : Int
  deprecatedTag : Int
deriving DecidableEq, Repr

/-- Go: `analyzer.PrefixAnalysis`. -/
structure PrefixAnalysis where
  pfx : String
  status : Status
  message : String
  objectCount : Int
  daysSinceModified : Int
deriving DecidableEq, Repr

/-- Go: `analyzer.BucketAnalysis` (`unusedScore` is the nil-able pointer). -/
structure BucketAnalysis where
  name : String
  status : Status
  message : String
  referencedInCode : Bool
  existsInAWS : Bool
  versioningEnabled : Bool
  lifecycleRules : Int
  prefixes : List PrefixAnalysis
  unusedScore : Option UnusedScore
deriving DecidableEq, Repr

/-- Go: `analyzer.Summary`. -/
structure Summary where
  totalBuckets : Nat
  okBuckets : Nat
  missingBuckets : List String
  unusedBuckets : List String
  missingPrefixes : List String
  stalePrefixes : List String
  versionSprawl : List String
  lifecycleMisconfig : List String
deriving DecidableEq, Repr

/-- Go: `analyzer.Result`; the bucket map carries its iteration order. -/
structure Result where
  summary : Summary
  buckets : List (String × BucketAnalysis)
deriving DecidableEq, Repr

/-- Go: `strings.ToLower`, character-wise over the string's characters. -/
def strToLower (s : String) : String :=
  String.mk (s.data.map Char.toLower)

/-- The deprecated-marker terms of scan mode
(Go: `calculateUnusedScore`, local `deprecatedTags`). -/
def deprecatedTagsScan : List String :=
  ["deprecated", "old", "unused", "delete", "obsolete", "legacy"]

/-- Go: `analyzer.calculateUnusedScore`.  The tag loop with its double
`break` is the first match of the tag list in iteration order. -/
def calculateUnusedScore (bucket : String) (info : BucketInfo)
    (referencedBuckets : String → Bool) (config : Config) : UnusedScore :=
  let threshold := if config.unusedScoreThreshold ≤ 0 then 150
                   else config.unusedScoreThreshold
  let s0 : UnusedScore :=
    { total := 0
      reasons := []
      isUnused := false
      notInCode := 0
      empty := 0
      oldBucket := 0
      deprecatedTag := 0 }
  let s1 := if !(referencedBuckets bucket) then
      { s0 with
        notInCode := 100
        total := s0.total + 100
        reasons := s0.reasons ++ ["Not referenced in code"] }
    else s0
  let s2 := if info.isEmpty then
      { s1 with
        empty := 50
        total := s1.total + 50
        reasons := s1.reasons ++ ["Bucket is empty"] }
    else s1
  let s3 := match info.tags with
    | none => s2
    | some tags =>
      match tags.find? (fun (kv : String × String) =>
          deprecatedTagsScan.any (fun d =>
            strToLower kv.1 == d || strToLower kv.2 == d)) with
      | some kv =>
        { s2 with
          deprecatedTag := 20
          total := s2.total + 20
          reasons := s2.reasons ++
            ["Has deprecated tag: " ++ kv.1 ++ "=" ++ kv.2] }
      | none => s2
  { s3 with isUnused := s3.total ≥ threshold }

/-- Go: `analyzer.filterRefsByBucket`. -/
def filterRefsByBucket (refs : List Reference) (bucket : String) :
    List Reference :=
  refs.filter (fun r => r.bucket == bucket)

/-- Go: `analyzer.analyzePrefixes`. -/
def analyzePrefixes (prefixes : List PrefixInfo) (_refs : List Reference)
    (config : Config) : List PrefixAnalysis :=
  prefixes.map (fun p =>
    if !p.existsFlag then
      { pfx := p.pfx
        status := Status.missingPrefix
        message := "Prefix referenced in code but no objects found"
        objectCount := p.objectCount
        daysSinceModified := p.daysSinceModified }
    else if p.daysSinceModified > config.staleThresholdDays then
      { pfx := p.pfx
        status := Status.stalePrefix
        message := "No modifications for " ++ toString p.daysSinceModified
          ++ " days (threshold: " ++ toString config.staleThresholdDays ++ ")"
        objectCount := p.objectCount
        daysSinceModified := p.daysSinceModified }
    else
      { pfx := p.pfx
        status := Status.ok
        message := ""
        objectCount := p.objectCount
        daysSinceModified := p.daysSinceModified })

/-- Go: `analyzer.analyzeBucket`.  The Go empty-string status sentinel is
modelled by the staged `Option Status`. -/
def analyzeBucket (bucket : String) (info : BucketInfo)
    (refs : List Reference) (config : Config)
    (referencedBuckets : String → Bool) : BucketAnalysis :=
  let base : BucketAnalysis :=
    { name := bucket
      status := Status.ok
      message := ""
      referencedInCode := referencedBuckets bucket
      existsInAWS := info.existsFlag
      versioningEnabled := info.versioningEnabled
      lifecycleRules := info.lifecycleRules
      prefixes := []
      unusedScore := none }
  if !info.existsFlag then
    { base with
      status := Status.missingBucket
      message := "Bucket referenced in code but does not exist in AWS" }
  else
    let unused := calculateUnusedScore bucket info referencedBuckets config
    let withScore := if config.checkUnused then
        { base with unusedScore := some unused } else base
    if config.checkUnused && unused.isUnused then
      { withScore with
        status := Status.unusedBucket
        message := "Bucket appears unused (score: " ++ toString unused.total
          ++ "/" ++ toString config.unusedScoreThreshold ++ ")" }
    else
      let status1 : Option (Status × String) :=
        if info.versioningEnabled && info.lifecycleRules == 0 then
          some (Status.versionSprawl,
            "Versioning enabled but no lifecycle rules to clean up old versions")
        else none
      let bucketRefs := filterRefsByBucket refs bucket
      let prefixResults := if info.prefixes.length > 0 then
          analyzePrefixes info.prefixes bucketRefs config else []
      let status2 : Option (Status × String) :=
        match status1 with
        | some s => some s
        | none =>
          if info.lifecycleRules == 0 && info.prefixes.length > 0 &&
              info.prefixes.any (fun p => p.objectCount > 100) then
            some (Status.lifecycleMisconfig,
              "Bucket has no lifecycle rules but contains many objects")
          else none
      match status2 with
      | some s =>
        { withScore with
          status := s.1
          message := s.2
          prefixes := prefixResults }
      | none =>
        { withScore with
          status := Status.ok
          message := "Bucket exists and matches expected usage"
          prefixes := prefixResults }

/-- The per-prefix summary accumulation inside the `Analyze` loop. -/
def prefixSummaryStep (bucket : String) (s : Summary) (p : PrefixAnalysis) :
    Summary :=
  match p.status with
  | Status.missingPrefix =>
    { s with missingPrefixes := s.missingPrefixes ++ [bucket ++ "/" ++ p.pfx] }
  | Status.stalePrefix =>
    { s with stalePrefixes := s.stalePrefixes ++ [bucket ++ "/" ++ p.pfx] }
  | _ => s

/-- The per-bucket body of the `Analyze` loop. -/
def analyzeStep (refs : List Reference) (config : Config)
    (referencedBuckets : String → Bool) (result : Result)
    (bi : String × BucketInfo) : Result :=
  let bucket := bi.1
  let analysis := analyzeBucket bucket bi.2 refs config referencedBuckets
  let s1 := { result.summary with
    totalBuckets := result.summary.totalBuckets + 1 }
  let s2 := match analysis.status with
    | Status.ok => { s1 with okBuckets := s1.okBuckets + 1 }
    | Status.missingBucket =>
      { s1 with missingBuckets := s1.missingBuckets ++ [bucket] }
    | Status.unusedBucket =>
      { s1 with unusedBuckets := s1.unusedBuckets ++ [bucket] }
    | Status.versionSprawl =>
      { s1 with versionSprawl := s1.versionSprawl ++ [bucket] }
    | Status.lifecycleMisconfig =>
      { s1 with lifecycleMisconfig := s1.lifecycleMisconfig ++ [bucket] }
    | _ => s1
  let s3 := analysis.prefixes.foldl (prefixSummaryStep bucket) s2
  { summary := s3, buckets := result.buckets ++ [(bucket, analysis)] }

/-- Go: `analyzer.Analyze` over the metadata map in a given iteration order. -/
def Analyze (refs : List Reference)
    (bucketInfo : List (String × BucketInfo)) (config : Config) : Result :=
  let referencedBuckets : String → Bool :=
    fun b => refs.any (fun r => r.bucket == b)
  bucketInfo.foldl (analyzeStep refs config referencedBuckets)
    { summary :=
        { totalBuckets := 0
          okBuckets := 0
          missingBuckets := []
          unusedBuckets := []
          missingPrefixes := []
          stalePrefixes := []
          versionSprawl := []
          lifecycleMisconfig := [] }
      buckets := [] }

/-- Go: `analyzer.DiscoveryConfig`. -/
structure DiscoveryConfig where
  ageThresholdDays : Int
  inactivityThresholdDays : Int
  checkEncryption : Bool
  checkPublicAccess : Bool
  riskScoreThreshold : Int
deriving DecidableEq, Repr

/-- Go: `analyzer.BucketDiscovery`. -/
structure BucketDiscovery where
  name : String
  region : String
  status : Status
  riskScore : Int
  riskFactors : List String
  recommendations : List String
  bucketInfo : BucketInfo
deriving DecidableEq, Repr

/-- The deprecated-marker terms of discovery mode
(Go: `hasDeprecatedTags`, local `deprecatedTags`). -/
def deprecatedTagsDiscovery : List String :=
  ["deprecated", "old", "unused", "delete", "obsolete", "legacy", "retired"]

/-- Go: `analyzer.hasDeprecatedTags`. -/
def hasDeprecatedTags (tags : Option (List (String × String))) : Bool :=
  match tags with
  | none => false
  | some ts =>
    ts.any (fun (kv : String × String) =>
      deprecatedTagsDiscovery.any (fun d =>
        strToLower kv.1 == d || strToLower kv.2 == d))

/-- The factor-accumulation phase of Go `analyzer.analyzeBucketDiscovery`
(factors 1–7): each factor is a staged update of the score and the
factor/recommendation lists. -/
def analyzeBucketDiscoveryFactors (info : BucketInfo)
    (config : DiscoveryConfig) : BucketDiscovery :=
  let d0 : BucketDiscovery :=
    { name := info.name
      region := info.region
      status := Status.ok
      riskScore := 0
      riskFactors := []
      recommendations := []
      bucketInfo := info }
  let d1 := if info.ageInDays > config.ageThresholdDays &&
      config.ageThresholdDays > 0 then
      { d0 with
        riskScore := d0.riskScore + 20
        riskFactors := d0.riskFactors ++
          ["Old bucket (" ++ toString info.ageInDays ++ " days)"] }
    else d0
  let d2 := if info.daysSinceActivity > config.inactivityThresholdDays &&
      config.inactivityThresholdDays > 0 then
      { d1 with
        riskScore := d1.riskScore + 50
        riskFactors := d1.riskFactors ++
          ["No activity for " ++ toString info.daysSinceActivity ++ " days"]
        recommendations := d1.recommendations ++
          ["Consider archiving or deleting if not needed"] }
    else d1
  let d3 := if info.isEmpty then
      { d2 with
        riskScore := d2.riskScore + 30
        riskFactors := d2.riskFactors ++ ["Empty bucket"]
        recommendations := d2.recommendations ++ ["Delete if not needed"] }
    else d2
  let d4 := if hasDeprecatedTags info.tags then
      { d3 with
        riskScore := d3.riskScore + 20
        riskFactors := d3.riskFactors ++ ["Has deprecated tags"]
        recommendations := d3.recommendations ++
          ["Verify if bucket is still needed"] }
    else d3
  let d5 := if info.versioningEnabled && info.lifecycleRules == 0 then
      { d4 with
        riskScore := d4.riskScore + 30
        riskFactors := d4.riskFactors ++
          ["Versioning enabled without lifecycle rules"]
        recommendations := d4.recommendations ++
          ["Add lifecycle policy to expire old versions"] }
    else d4
  let encMissing : Bool := match info.encryption with
    | some e => !e.enabled
    | none => false
  let d6 := if config.checkEncryption && encMissing then
      { d5 with
        riskScore := d5.riskScore + 40
        riskFactors := d5.riskFactors ++ ["No encryption enabled"]
        recommendations := d5.recommendations ++
          ["Enable default encryption (AES256 or KMS)"] }
    else d5
  let pubOpen : Bool := match info.publicAccess with
    | some p => p.isPublic
    | none => false
  let d7 := if config.checkPublicAccess && pubOpen then
      { d6 with
        riskScore := d6.riskScore + 60
        riskFactors := d6.riskFactors ++ ["Public access enabled"]
        recommendations := d6.recommendations ++
          ["Review and restrict public access if not required"] }
    else d6
  d7

/-- Go: `analyzer.analyzeBucketDiscovery`: the factor accumulation followed
by status resolution from the total score by the priority chain. -/
def analyzeBucketDiscovery (info : BucketInfo) (config : DiscoveryConfig) :
    BucketDiscovery :=
  let d7 := analyzeBucketDiscoveryFactors info config
  let threshold := if config.riskScoreThreshold ≤ 0 then 100
                   else config.riskScoreThreshold
  if d7.riskScore ≥ threshold then
    if info.isEmpty &&
        (info.daysSinceActivity > config.inactivityThresholdDays ||
         info.daysSinceActivity == 0) then
      { d7 with status := Status.unusedBucket }
    else if info.versioningEnabled && info.lifecycleRules == 0 then
      { d7 with status := Status.versionSprawl }
    else if info.daysSinceActivity > config.inactivityThresholdDays then
      { d7 with status := Status.inactive }
    else
      { d7 with status := Status.risky }
  else
    { d7 with status := Status.ok }

/-- Go: `baseline.Finding` (`type` field kept as Go names it; `pfx` is the
Go `Prefix` field). -/
structure Finding where
  type : String
  bucket : String
  pfx : String
deriving DecidableEq, Repr

/-- Go: `baseline.Finding.key`. -/
def Finding.key (f : Finding) : String :=
  if f.pfx ≠ "" then f.type ++ "|" ++ f.bucket ++ "|" ++ f.pfx
  else f.type ++ "|" ++ f.bucket

/-- Go: `baseline.DiffResult`. -/
structure DiffResult where
  new : List Finding
  resolved : List Finding
  unchanged : List Finding
deriving DecidableEq, Repr

/-- The first Go loop body of `baseline.Diff` (current vs. baseline keys). -/
def diffStepCurrent (baseKeys : List String) (acc : DiffResult) (f : Finding) :
    DiffResult :=
  if baseKeys.contains f.key then
    { acc with unchanged := acc.unchanged ++ [f] }
  else
    { acc with new := acc.new ++ [f] }

/-- The second Go loop body of `baseline.Diff` (baseline vs. current keys). -/
def diffStepBaseline (curKeys : List String) (acc : DiffResult) (f : Finding) :
    DiffResult :=
  if curKeys.contains f.key then acc
  else { acc with resolved := acc.resolved ++ [f] }

/-- Go: `baseline.Diff`.  The two Go loops are folds in slice order; the key
sets `baseMap`/`curMap` are membership in the key lists. -/
def Diff (current baseline : List Finding) : DiffResult :=
  let baseKeys := baseline.map Finding.key
  let curKeys := current.map Finding.key
  let r1 := current.foldl (diffStepCurrent baseKeys)
    { new := [], resolved := [], unchanged := [] }
  baseline.foldl (diffStepBaseline curKeys) r1

/-- Go: `strings.Contains` on character lists (naive substring search). -/
def listContainsSub (sub : List Char) : List Char → Bool
  | [] => sub.isEmpty
  | c :: rest => sub.isPrefixOf (c :: rest) || listContainsSub sub rest

/-- Go: `strings.Contains s sub`. -/
def strContains (s sub : String) : Bool :=
  listContainsSub sub.data s.data

/-- Retryable signatures (Go: `isRetryableError`, local `retryableErrors`). -/
def retryableErrors : List String :=
  ["RequestLimitExceeded", "ServiceUnavailable", "SlowDown",
   "RequestTimeout", "TooManyRequests", "InternalError", "503", "429"]

/-- Go: `s3.isRetryableError` (a `nil` error is `none`). -/
def isRetryableError (err : Option String) : Bool :=
  match err with
  | none => false
  | some errStr => retryableErrors.any (fun r => strContains errStr r)

/-- The retry loop of Go `s3.Client.WithRetry` over attempt-indexed outcomes
(`op n = none` means attempt `n` succeeds, `some e` that it fails with `e`).
Returns the final outcome and the number of invocations of the operation.
The backoff sleep and its context-cancellation select are timing behaviour
occurring between attempts and do not change the outcome when the caller's
context is never cancelled, which is the situation modelled here. -/
def withRetryAux (op : Nat → Option String) :
    Nat → Nat → Option String → Except String Unit × Nat
  | 0, calls, lastErr =>
    (Except.error ("max retries exceeded: " ++ lastErr.getD ""), calls)
  | fuel + 1, calls, _lastErr =>
    match op calls with
    | none => (Except.ok (), calls + 1)
    | some e =>
      if isRetryableError (some e) then
        withRetryAux op fuel (calls + 1) (some e)
      else (Except.error e, calls + 1)

/-- Go: `s3.Client.WithRetry` with its fixed `maxRetries = 3`. -/
def WithRetry (op : Nat → Option String) : Except String Unit × Nat :=
  withRetryAux op 3 0 none

/-- Oracle for the remote provider calls.  Each field gives the final outcome
of the corresponding call (after the retry envelope of `WithRetry`); `Option`
payloads mirror nil-able response fields. -/
structure S3World where
  listBucketsResult : Except String (List String)
  getBucketLocation : String → Except String String
  getVersioning : String → Except String Bool
  getLifecycle : String → Except String (Option Nat)
  getTagging : String → Except String (Option (List (String × String)))
  listObjectsKeyCount : String → Except String (Option Int)
  listPrefixObjects : String → String → Except String (Option Int × Option Int)
  listRegions : Except String (List String)

/-- Go: `s3.Inspector` (the configuration the claims depend on; the client is
represented by its configured region). -/
structure Inspector where
  clientRegion : String
  concurrency : Nat
  regions : List String
  allRegions : Bool

/-- Go: `Inspector.determineRegions`. -/
def determineRegions (insp : Inspector) (w : S3World) :
    Except String (List String) :=
  if insp.regions.length > 0 then Except.ok insp.regions
  else if insp.allRegions then
    match w.listRegions with
    | Except.error e => Except.error e
    | Except.ok regions => Except.ok regions
  else Except.ok [insp.clientRegion]

/-- Go: `Inspector.getBucketRegion` (the `us-east-1` empty-location case). -/
def getBucketRegion (w : S3World) (bucket : String) : Except String String :=
  match w.getBucketLocation bucket with
  | Except.error e => Except.error e
  | Except.ok loc => if loc == "" then Except.ok "us-east-1" else Except.ok loc

/-- Go: `formatError` (a `nil` error is `none`). -/
def formatError (operation resource : String) (err : Option String) : String :=
  match err with
  | none => ""
  | some errMsg =>
    if strContains errMsg "AccessDenied" || strContains errMsg "Access Denied" then
      operation ++ " failed for " ++ resource ++
        ": Access Denied - check IAM permissions"
    else if strContains errMsg "NoSuchBucket" then
      operation ++ " failed for " ++ resource ++
        ": Bucket does not exist or is in a different region"
    else if strContains errMsg "RequestLimitExceeded" ||
        strContains errMsg "SlowDown" then
      operation ++ " failed for " ++ resource ++
        ": Rate limit exceeded - consider reducing --concurrency"
    else operation ++ " failed for " ++ resource ++ ": " ++ errMsg

/-- Go: `Inspector.extractPrefixes` (unique non-empty reference prefixes in
first-occurrence order). -/
def extractPrefixes (refs : List Reference) : List String :=
  (refs.foldl (fun (acc : List String) r =>
    if r.pfx ≠ "" && !(acc.contains r.pfx) then acc ++ [r.pfx] else acc) [])

/-- Go: `Inspector.inspectPrefixWithClient`. -/
def inspectPrefixWithClient (w : S3World) (bucket pfx : String) : PrefixInfo :=
  let info0 : PrefixInfo :=
    { pfx := pfx, existsFlag := false, objectCount := 0, daysSinceModified := 0 }
  match w.listPrefixObjects bucket pfx with
  | Except.error _ => info0
  | Except.ok (keyCount, latestDays) =>
    match keyCount with
    | none => info0
    | some kc =>
      if kc == 0 then info0
      else
        { info0 with
          existsFlag := true
          objectCount := kc
          daysSinceModified := latestDays.getD 0 }

/-- Go: `Inspector.inspectBucket`.  A failed existence/region lookup is fatal
for the bucket (`existsFlag := false` plus a formatted error); every later
metadata call soft-fails, leaving the field at its zero value (only the
versioning call records its failure in `error`). -/
def inspectBucket (w : S3World) (bucket : String) (refs : List Reference) :
    BucketInfo :=
  let info0 : BucketInfo :=
    { name := bucket
      existsFlag := false
      region := ""
      daysSinceActivity := 0
      ageInDays := 0
      versioningEnabled := false
      lifecycleRules := 0
      prefixes := []
      tags := none
      isEmpty := false
      objectCount := 0
      totalSize := 0
      totalVersionSize := 0
      versionCount := 0
      encryption := none
      publicAccess := none
      error := "" }
  match getBucketRegion w bucket with
  | Except.error e =>
    { info0 with error := formatError "get bucket location" bucket (some e) }
  | Except.ok region =>
    let info1 := { info0 with existsFlag := true, region := region }
    let info2 := match w.getVersioning bucket with
      | Except.ok v => { info1 with versioningEnabled := v }
      | Except.error e =>
        { info1 with error := formatError "get versioning" bucket (some e) }
    let info3 := match w.getLifecycle bucket with
      | Except.ok (some n) => { info2 with lifecycleRules := (n : Int) }
      | Except.ok none => info2
      | Except.error _ => info2
    let info4 := match w.getTagging bucket with
      | Except.ok (some ts) => { info3 with tags := some ts }
      | Except.ok none => info3
      | Except.error _ => info3
    let info5 := match w.listObjectsKeyCount bucket with
      | Except.ok kc => { info4 with isEmpty := kc == some 0 }
      | Except.error _ => info4
    let prefixNames := extractPrefixes refs
    if prefixNames.length > 0 then
      { info5 with
        prefixes := prefixNames.map (inspectPrefixWithClient w bucket) }
    else info5

/-- The distinct bucket names of the reference list in first-occurrence
order — the key set of the Go `bucketRefs` grouping map. -/
def dedupAcc (seen : List String) : List String → List String
  | [] => []
  | x :: xs =>
    if seen.contains x then dedupAcc seen xs
    else x :: dedupAcc (x :: seen) xs

/-- Association-list update, mirroring a Go map assignment of a present key. -/
def updateAssoc (m : List (String × BucketInfo)) (k : String) (v : BucketInfo) :
    List (String × BucketInfo) :=
  m.map (fun kv => if kv.1 == k then (k, v) else kv)

/-- Go: `Inspector.InspectBuckets`.  Region resolution and the account-wide
listing are the only systemic failures; afterwards each referenced bucket's
entry is initialised from the listing and then overwritten with its worker's
`inspectBucket` result (result aggregation is serialised by a mutex, so the
final map is order-independent; the fold fixes one aggregation order). -/
def InspectBuckets (insp : Inspector) (w : S3World) (refs : List Reference) :
    Except String (List (String × BucketInfo)) :=
  match determineRegions insp w with
  | Except.error e => Except.error ("failed to determine regions: " ++ e)
  | Except.ok _regions =>
    match w.listBucketsResult with
    | Except.error e =>
      Except.error ("failed to list AWS buckets: " ++
        ("failed to list buckets: " ++ e))
    | Except.ok awsBuckets =>
      let bucketNames := dedupAcc [] (refs.map (fun r => r.bucket))
      let bucketRegions : String → String := fun b =>
        if awsBuckets.contains b then
          match getBucketRegion w b with
          | Except.ok r => r
          | Except.error _ => insp.clientRegion
        else ""
      let initAssoc := bucketNames.map (fun b =>
        (b, ({ name := b
               existsFlag := awsBuckets.contains b
               region := bucketRegions b
               daysSinceActivity := 0
               ageInDays := 0
               versioningEnabled := false
               lifecycleRules := 0
               prefixes := []
               tags := none
               isEmpty := false
               objectCount := 0
               totalSize := 0
               totalVersionSize := 0
               versionCount := 0
               encryption := none
               publicAccess := none
               error := "" } : BucketInfo)))
      Except.ok (bucketNames.foldl (fun m b =>
        updateAssoc m b
          (inspectBucket w b (refs.filter (fun r => r.bucket == b))))
        initAssoc)

/-! ## Concrete fixtures shared by witnesses and counterexamples -/

/-- A bucket-metadata record with every field at its zero value. -/
def bucketInfoZero : BucketInfo :=
  { name := ""
    existsFlag := false
    region := ""
    daysSinceActivity := 0
    ageInDays := 0
    versioningEnabled := false
    lifecycleRules := 0
    prefixes := []
    tags := none
    isEmpty := false
    objectCount := 0
    totalSize := 0
    totalVersionSize := 0
    versionCount := 0
    encryption := none
    publicAccess := none
    error := "" }

/-- A scan configuration with every field at its zero value. -/
def configZero : Config :=
  { staleThresholdDays := 0
    unusedThresholdDays := 0
    checkUnused := false
    unusedScoreThreshold := 0 }

/-- A discovery configuration with every field at its zero value. -/
def discoveryConfigZero : DiscoveryConfig :=
  { ageThresholdDays := 0
    inactivityThresholdDays := 0
    checkEncryption := false
    checkPublicAccess := false
    riskScoreThreshold := 0 }

/-! ## C2 — a non-existing bucket is always classified resource-missing -/

/-- C2: for every bucket whose metadata has `exists=false`, the scan-mode
analyzer classifies it resource-missing, for all other metadata fields, all
reference lists and all configurations; no other classification factor is
evaluated for it (the returned analysis carries no unused score and no
prefix analyses). -/
theorem analyzeBucket_missing (bucket : String) (info : BucketInfo)
    (refs : List Reference) (config : Config)
    (referencedBuckets : String → Bool) (h : info.existsFlag = false) :
    (analyzeBucket bucket info refs config referencedBuckets).status =
        Status.missingBucket ∧
    (analyzeBucket bucket info refs config referencedBuckets).unusedScore =
        none ∧
    (analyzeBucket bucket info refs config referencedBuckets).prefixes = [] := by
  simp [analyzeBucket, h]

/-- Witness for C2 at a concrete non-existing bucket. -/
theorem analyzeBucket_missing_witness :
    (analyzeBucket "assets" bucketInfoZero [] configZero
        (fun _ => false)).status = Status.missingBucket ∧
    (analyzeBucket "assets" bucketInfoZero [] configZero
        (fun _ => false)).unusedScore = none ∧
    (analyzeBucket "assets" bucketInfoZero [] configZero
        (fun _ => false)).prefixes = [] :=
  analyzeBucket_missing "assets" bucketInfoZero [] configZero
    (fun _ => false) rfl

/-! ## C3 — discovery-mode status priority order -/

/-- The status-resolution phase reads the score accumulated by the factor
phase: projecting `riskScore` through the final `ite` chain. -/
theorem analyzeBucketDiscovery_riskScore (info : BucketInfo)
    (config : DiscoveryConfig) :
    (analyzeBucketDiscovery info config).riskScore =
      (analyzeBucketDiscoveryFactors info config).riskScore := by
  unfold analyzeBucketDiscovery
  generalize analyzeBucketDiscoveryFactors info config = d
  simp only [apply_ite BucketDiscovery.riskScore, ite_self]

/-- C3: in discovery mode, when the total risk score reaches the (defaulted)
threshold the status follows the priority order
unused > version-sprawl > inactive > risky, and below the threshold the
status is OK regardless of which factors fired. -/
theorem analyzeBucketDiscovery_status (info : BucketInfo)
    (config : DiscoveryConfig) :
    (analyzeBucketDiscovery info config).status =
      (if (analyzeBucketDiscovery info config).riskScore ≥
          (if config.riskScoreThreshold ≤ 0 then 100
           else config.riskScoreThreshold) then
        if info.isEmpty &&
            (info.daysSinceActivity > config.inactivityThresholdDays ||
             info.daysSinceActivity == 0) then
          Status.unusedBucket
        else if info.versioningEnabled && info.lifecycleRules == 0 then
          Status.versionSprawl
        else if info.daysSinceActivity > config.inactivityThresholdDays then
          Status.inactive
        else
          Status.risky
      else Status.ok) := by
  rw [analyzeBucketDiscovery_riskScore]
  unfold analyzeBucketDiscovery
  generalize analyzeBucketDiscoveryFactors info config = d
  simp only [apply_ite BucketDiscovery.status]

/-! ## C10 — uncollected security state scores as not-triggered -/

/-- C10: a bucket whose encryption state was not collected (`nil`) and whose
public-access state was not collected contributes zero points for the
no-encryption and public-access factors even when those checks are enabled:
the whole risk score is the same as with both checks disabled. -/
theorem analyzeBucketDiscovery_nil_security (info : BucketInfo)
    (config : DiscoveryConfig) :
    (info.encryption = none →
      (analyzeBucketDiscovery info config).riskScore =
        (analyzeBucketDiscovery info
          { config with checkEncryption := false }).riskScore) ∧
    (info.publicAccess = none →
      (analyzeBucketDiscovery info config).riskScore =
        (analyzeBucketDiscovery info
          { config with checkPublicAccess := false }).riskScore) := by
  constructor
  · intro he
    rw [analyzeBucketDiscovery_riskScore, analyzeBucketDiscovery_riskScore]
    unfold analyzeBucketDiscoveryFactors
    simp [he]
  · intro hp
    rw [analyzeBucketDiscovery_riskScore, analyzeBucketDiscovery_riskScore]
    unfold analyzeBucketDiscoveryFactors
    simp [hp]

/-- Witness for C10: a one-year-old empty bucket with uncollected security
state and both security checks enabled. -/
theorem analyzeBucketDiscovery_nil_security_witness :
    ((analyzeBucketDiscovery
        { bucketInfoZero with name := "b", isEmpty := true, ageInDays := 400 }
        { discoveryConfigZero with
            checkEncryption := true
            checkPublicAccess := true
            ageThresholdDays := 365 }).riskScore =
      (analyzeBucketDiscovery
        { bucketInfoZero with name := "b", isEmpty := true, ageInDays := 400 }
        { { discoveryConfigZero with
              checkEncryption := true
              checkPublicAccess := true
              ageThresholdDays := 365 } with
            checkEncryption := false }).riskScore) ∧
    ((analyzeBucketDiscovery
        { bucketInfoZero with name := "b", isEmpty := true, ageInDays := 400 }
        { discoveryConfigZero with
            checkEncryption := true
            checkPublicAccess := true
            ageThresholdDays := 365 }).riskScore =
      (analyzeBucketDiscovery
        { bucketInfoZero with name := "b", isEmpty := true, ageInDays := 400 }
        { { discoveryConfigZero with
              checkEncryption := true
              checkPublicAccess := true
              ageThresholdDays := 365 } with
            checkPublicAccess := false }).riskScore) :=
  ⟨(analyzeBucketDiscovery_nil_security
      { bucketInfoZero with name := "b", isEmpty := true, ageInDays := 400 }
      { discoveryConfigZero with
          checkEncryption := true
          checkPublicAccess := true
          ageThresholdDays := 365 }).1 rfl,
   (analyzeBucketDiscovery_nil_security
      { bucketInfoZero with name := "b", isEmpty := true, ageInDays := 400 }
      { discoveryConfigZero with
          checkEncryption := true
          checkPublicAccess := true
          ageThresholdDays := 365 }).2 rfl⟩

/-! ## C4 — additivity of the scan-mode unused score -/

/-- The unused score as claim C4 states it, with the seven-term
deprecated-marker list of discovery mode (including "retired"); the scan-mode
source uses only six terms, so this disagrees with the code on a tag equal to
"retired". -/
def unusedScoreClaimC4 (bucket : String) (info : BucketInfo)
    (referencedBuckets : String → Bool) : Int :=
  (if referencedBuckets bucket then 0 else 100) +
  (if info.isEmpty then 50 else 0) +
  (if (info.tags.getD []).any (fun (kv : String × String) =>
      deprecatedTagsDiscovery.any (fun d =>
        strToLower kv.1 == d || strToLower kv.2 == d)) then 20 else 0)

/-- Counterexample to C4 as stated: a referenced, non-empty bucket tagged
`status=retired` scores 0 in the scan-mode code ("retired" is only a
discovery-mode marker term), while the claim's seven-term formula gives 20. -/
theorem calculateUnusedScore_retired_counterexample :
    (calculateUnusedScore "tagged"
        { bucketInfoZero with
            name := "tagged"
            existsFlag := true
            tags := some [("status", "retired")] }
        (fun b => b == "tagged") configZero).total ≠
      unusedScoreClaimC4 "tagged"
        { bucketInfoZero with
            name := "tagged"
            existsFlag := true
            tags := some [("status", "retired")] }
        (fun b => b == "tagged") := by
  decide

/-- C4 (amended): the scan-mode unused score is the sum of exactly these
contributions — 100 if the bucket is not referenced in code, plus 50 if the
bucket is empty, plus 20 (at most once, however many tags match) if any tag
key or value is case-insensitively equal to one of the scan-mode
deprecated-marker terms "deprecated", "old", "unused", "delete", "obsolete",
"legacy" (the term "retired" belongs only to the discovery-mode list). -/
theorem calculateUnusedScore_total (bucket : String) (info : BucketInfo)
    (referencedBuckets : String → Bool) (config : Config) :
    (calculateUnusedScore bucket info referencedBuckets config).total =
      (if referencedBuckets bucket then 0 else 100) +
      (if info.isEmpty then 50 else 0) +
      (if (info.tags.getD []).any (fun (kv : String × String) =>
          deprecatedTagsScan.any (fun d =>
            strToLower kv.1 == d || strToLower kv.2 == d)) then 20 else 0) := by
  unfold calculateUnusedScore
  cases htags : info.tags with
  | none =>
    by_cases href : referencedBuckets bucket <;>
      by_cases hemp : info.isEmpty <;>
        simp [href, hemp]
  | some ts =>
    cases hfind : ts.find? (fun (kv : String × String) =>
        deprecatedTagsScan.any (fun d =>
          strToLower kv.1 == d || strToLower kv.2 == d)) with
    | none =>
      have hany : ts.any (fun (kv : String × String) =>
          deprecatedTagsScan.any (fun d =>
            strToLower kv.1 == d || strToLower kv.2 == d)) = false := by
        rw [List.any_eq_false]
        intro kv hkv
        have := List.find?_eq_none.mp hfind kv hkv
        simpa using this
      by_cases href : referencedBuckets bucket <;>
        by_cases hemp : info.isEmpty <;>
          simp [href, hemp, hfind, hany]
    | some kv =>
      have hmem := List.mem_of_find?_eq_some hfind
      have hp := List.find?_some hfind
      have hany : ts.any (fun (kv : String × String) =>
          deprecatedTagsScan.any (fun d =>
            strToLower kv.1 == d || strToLower kv.2 == d)) = true := by
        rw [List.any_eq_true]
        exact ⟨kv, hmem, hp⟩
      by_cases href : referencedBuckets bucket <;>
        by_cases hemp : info.isEmpty <;>
          simp [href, hemp, hfind, hany]

/-! ## C7 — region-resolution precedence -/

/-- C7: region resolution obeys the precedence explicit-list >
all-regions-flag > default region, and a failing region-listing call is
propagated as the resolution result (never a silent fallback to the
default region). -/
theorem determineRegions_precedence (insp : Inspector) (w : S3World) :
    (insp.regions ≠ [] →
      determineRegions insp w = Except.ok insp.regions) ∧
    (insp.regions = [] → insp.allRegions = true →
      determineRegions insp w = w.listRegions) ∧
    (insp.regions = [] → insp.allRegions = false →
      determineRegions insp w = Except.ok [insp.clientRegion]) := by
  refine ⟨fun h => ?_, fun h ha => ?_, fun h ha => ?_⟩
  · have hl : insp.regions.length > 0 := List.length_pos.mpr h
    simp [determineRegions, hl]
  · cases hw : w.listRegions <;> simp [determineRegions, h, ha, hw]
  · simp [determineRegions, h, ha]

/-- Witness for C7 at concrete inspectors and worlds: a failing
region-listing call under the all-regions flag is returned as the error, an
explicit region list is returned as-is, and otherwise the default region is
used. -/
theorem determineRegions_precedence_witness :
    determineRegions
        { clientRegion := "us-east-1", concurrency := 10, regions := [],
          allRegions := true }
        { listBucketsResult := Except.ok []
          getBucketLocation := fun _ => Except.ok ""
          getVersioning := fun _ => Except.ok false
          getLifecycle := fun _ => Except.ok none
          getTagging := fun _ => Except.ok none
          listObjectsKeyCount := fun _ => Except.ok none
          listPrefixObjects := fun _ _ => Except.ok (none, none)
          listRegions := Except.error "DescribeRegions failed" } =
      Except.error "DescribeRegions failed" ∧
    determineRegions
        { clientRegion := "us-east-1", concurrency := 10,
          regions := ["eu-west-1", "eu-west-2"], allRegions := true }
        { listBucketsResult := Except.ok []
          getBucketLocation := fun _ => Except.ok ""
          getVersioning := fun _ => Except.ok false
          getLifecycle := fun _ => Except.ok none
          getTagging := fun _ => Except.ok none
          listObjectsKeyCount := fun _ => Except.ok none
          listPrefixObjects := fun _ _ => Except.ok (none, none)
          listRegions := Except.error "DescribeRegions failed" } =
      Except.ok ["eu-west-1", "eu-west-2"] ∧
    determineRegions
        { clientRegion := "us-east-1", concurrency := 10, regions := [],
          allRegions := false }
        { listBucketsResult := Except.ok []
          getBucketLocation := fun _ => Except.ok ""
          getVersioning := fun _ => Except.ok false
          getLifecycle := fun _ => Except.ok none
          getTagging := fun _ => Except.ok none
          listObjectsKeyCount := fun _ => Except.ok none
          listPrefixObjects := fun _ _ => Except.ok (none, none)
          listRegions := Except.error "DescribeRegions failed" } =
      Except.ok ["us-east-1"] := by
  refine ⟨?_, ?_, ?_⟩
  · exact (determineRegions_precedence _ _).2.1 rfl rfl
  · exact (determineRegions_precedence _ _).1 (by decide)
  · exact (determineRegions_precedence _ _).2.2 rfl rfl

/-! ## C6 — retry only on transient errors, bounded attempts -/

/-- C6: an operation failing with a non-transient error on its first attempt
is invoked exactly once and its error is returned unchanged; an operation
failing with a transient error on every attempt is invoked exactly the
maximum three times and the wrapper returns an error wrapping the last
transient error. -/
theorem withRetry_spec (op : Nat → Option String) :
    (∀ e, op 0 = some e → isRetryableError (some e) = false →
      WithRetry op = (Except.error e, 1)) ∧
    (∀ e0 e1 e2, op 0 = some e0 → op 1 = some e1 → op 2 = some e2 →
      isRetryableError (some e0) = true → isRetryableError (some e1) = true →
      isRetryableError (some e2) = true →
      WithRetry op = (Except.error ("max retries exceeded: " ++ e2), 3)) := by
  constructor
  · intro e h0 hr
    simp [WithRetry, withRetryAux, h0, hr]
  · intro e0 e1 e2 h0 h1 h2 r0 r1 r2
    simp [WithRetry, withRetryAux, h0, h1, h2, r0, r1, r2]

/-- Witness for C6: an access-denied error is returned unchanged after one
invocation; a slow-down error on all three attempts yields the wrapped
final error after exactly three invocations. -/
theorem withRetry_spec_witness :
    WithRetry (fun _ => some "AccessDenied") =
      (Except.error "AccessDenied", 1) ∧
    WithRetry (fun _ => some "SlowDown") =
      (Except.error ("max retries exceeded: " ++ "SlowDown"), 3) := by
  constructor
  · exact (withRetry_spec (fun _ => some "AccessDenied")).1 "AccessDenied"
      rfl (by decide)
  · exact (withRetry_spec (fun _ => some "SlowDown")).2 "SlowDown" "SlowDown"
      "SlowDown" rfl rfl rfl (by decide) (by decide) (by decide)

/-! ## C9 — diffing a finding list against itself -/

/-- The first diff loop moves every finding whose key is in the baseline key
set into `unchanged`, in order. -/
theorem foldl_diffStepCurrent_all_mem (baseKeys : List String)
    (l : List Finding) (acc : DiffResult)
    (h : ∀ f ∈ l, baseKeys.contains (Finding.key f) = true) :
    l.foldl (diffStepCurrent baseKeys) acc =
      { acc with unchanged := acc.unchanged ++ l } := by
  induction l generalizing acc with
  | nil => simp
  | cons x xs ih =>
    have hx : baseKeys.contains (Finding.key x) = true := h x (by simp)
    rw [List.foldl_cons]
    have hstep : diffStepCurrent baseKeys acc x =
        { acc with unchanged := acc.unchanged ++ [x] } := by
      unfold diffStepCurrent
      rw [if_pos hx]
    rw [hstep, ih _ (fun f hf => h f (by simp [hf]))]
    simp

/-- The second diff loop leaves the accumulator untouched when every
baseline key is also a current key. -/
theorem foldl_diffStepBaseline_all_mem (curKeys : List String)
    (l : List Finding) (acc : DiffResult)
    (h : ∀ f ∈ l, curKeys.contains (Finding.key f) = true) :
    l.foldl (diffStepBaseline curKeys) acc = acc := by
  induction l generalizing acc with
  | nil => simp
  | cons x xs ih =>
    have hx : curKeys.contains (Finding.key x) = true := h x (by simp)
    rw [List.foldl_cons]
    have hstep : diffStepBaseline curKeys acc x = acc := by
      unfold diffStepBaseline
      rw [if_pos hx]
    rw [hstep]
    exact ih _ (fun f hf => h f (by simp [hf]))

/-- C9: diffing a finding list against itself yields no new findings, no
resolved findings, and the unchanged list equal to the input. -/
theorem diff_self (X : List Finding) :
    Diff X X = { new := [], resolved := [], unchanged := X } := by
  have hmem : ∀ f ∈ X, (X.map Finding.key).contains (Finding.key f) = true := by
    intro f hf
    exact List.elem_eq_true_of_mem (List.mem_map_of_mem Finding.key hf)
  simp only [Diff]
  rw [foldl_diffStepCurrent_all_mem (X.map Finding.key) X _ hmem,
      foldl_diffStepBaseline_all_mem (X.map Finding.key) X _ hmem]
  simp

/-! ## C8 — the flattened finding identity -/

/-- No field of the finding contains the key separator bar. -/
def barFree (f : Finding) : Bool :=
  !(f.type.data.contains '|') && !(f.bucket.data.contains '|') &&
    !(f.pfx.data.contains '|')

/-- A list whose `contains` is false does not have the element. -/
theorem not_mem_of_contains_false {c : Char} {l : List Char}
    (h : l.contains c = false) : c ∉ l := by
  intro hmem
  have ht : l.contains c = true := by
    simpa [List.contains] using List.elem_eq_true_of_mem hmem
  rw [ht] at h
  cases h

/-- Splitting at a separator absent from both leading segments is
unambiguous. -/
theorem append_bar_inj :
    ∀ (a : List Char), '|' ∉ a → ∀ (b : List Char), '|' ∉ b →
    ∀ (x y : List Char), a ++ '|' :: x = b ++ '|' :: y → a = b ∧ x = y := by
  intro a
  induction a with
  | nil =>
    intro _ b hb x y h
    cases b with
    | nil => simpa using h
    | cons d bs =>
      simp only [List.nil_append, List.cons_append, List.cons.injEq] at h
      exact absurd (List.mem_cons.mpr (Or.inl h.1)) hb
  | cons c as ih =>
    intro ha b hb x y h
    cases b with
    | nil =>
      simp only [List.cons_append, List.nil_append, List.cons.injEq] at h
      exact absurd (List.mem_cons.mpr (Or.inl h.1.symm)) ha
    | cons d bs =>
      simp only [List.cons_append, List.cons.injEq] at h
      obtain ⟨hcd, hrest⟩ := h
      have ha2 : '|' ∉ as := fun hm => ha (List.mem_cons_of_mem c hm)
      have hb2 : '|' ∉ bs := fun hm => hb (List.mem_cons_of_mem d hm)
      obtain ⟨hab, hxy⟩ := ih ha2 bs hb2 x y hrest
      exact ⟨by rw [hcd, hab], hxy⟩

/-- Counterexample to C8 as stated: the flattened key joins the fields with
a bar, so two findings that differ in all three fields can share a key when
a field itself contains a bar — the diff then treats them as the same
finding (the second is reported neither new nor resolved). -/
theorem diff_conflates_counterexample :
    ({ type := "x", bucket := "a|b", pfx := "" } : Finding) ≠
      { type := "x|a", bucket := "b", pfx := "" } ∧
    Diff [{ type := "x", bucket := "a|b", pfx := "" }]
        [{ type := "x|a", bucket := "b", pfx := "" }] =
      { new := [], resolved := [],
        unchanged := [{ type := "x", bucket := "a|b", pfx := "" }] } := by
  decide

/-- C8 (amended): for findings none of whose fields contains the key
separator bar, the flattened-key identity used by the baseline diff
coincides with field-wise equality: the keys are equal iff classification,
container, and prefix are all equal. -/
theorem finding_key_inj (f g : Finding) (hf : barFree f = true)
    (hg : barFree g = true) : f.key = g.key ↔ f = g := by
  constructor
  · intro h
    obtain ⟨ft, fb, fp⟩ := f
    obtain ⟨gt, gb, gp⟩ := g
    simp only [barFree, Bool.and_eq_true, Bool.not_eq_true'] at hf hg
    obtain ⟨⟨hf1, hf2⟩, hf3⟩ := hf
    obtain ⟨⟨hg1, hg2⟩, hg3⟩ := hg
    have hft := not_mem_of_contains_false hf1
    have hfb := not_mem_of_contains_false hf2
    have hfp3 := not_mem_of_contains_false hf3
    have hgt := not_mem_of_contains_false hg1
    have hgb := not_mem_of_contains_false hg2
    have hgp3 := not_mem_of_contains_false hg3
    have hbar : ("|" : String).data = ['|'] := rfl
    by_cases hfp : fp = "" <;> by_cases hgp : gp = ""
    · simp only [Finding.key, hfp, hgp, ne_eq, not_true_eq_false,
        if_false] at h
      have hd := congrArg String.data h
      simp only [String.data_append, List.append_assoc, hbar,
        List.singleton_append] at hd
      obtain ⟨h1, h2⟩ := append_bar_inj ft.data hft gt.data hgt _ _ hd
      simp only [Finding.mk.injEq]
      exact ⟨String.ext h1, String.ext h2, hfp.trans hgp.symm⟩
    · simp only [Finding.key, hfp, hgp, ne_eq, not_true_eq_false,
        if_false, if_true, not_false_eq_true] at h
      have hd := congrArg String.data h
      simp only [String.data_append, List.append_assoc, hbar,
        List.singleton_append] at hd
      obtain ⟨_, h2⟩ := append_bar_inj ft.data hft gt.data hgt _ _ hd
      exact absurd (h2 ▸ List.mem_append.mpr
        (Or.inr (List.mem_cons_self _ _))) hfb
    · simp only [Finding.key, hfp, hgp, ne_eq, not_true_eq_false,
        if_false, if_true, not_false_eq_true] at h
      have hd := congrArg String.data h
      simp only [String.data_append, List.append_assoc, hbar,
        List.singleton_append] at hd
      obtain ⟨_, h2⟩ := append_bar_inj ft.data hft gt.data hgt _ _ hd
      exact absurd (h2 ▸ List.mem_append.mpr
        (Or.inr (List.mem_cons_self _ _))) hgb
    · simp only [Finding.key, hfp, hgp, ne_eq, if_true,
        not_false_eq_true] at h
      have hd := congrArg String.data h
      simp only [String.data_append, List.append_assoc, hbar,
        List.singleton_append] at hd
      obtain ⟨h1, h2⟩ := append_bar_inj ft.data hft gt.data hgt _ _ hd
      obtain ⟨h3, h4⟩ := append_bar_inj fb.data hfb gb.data hgb _ _ h2
      simp only [Finding.mk.injEq]
      exact ⟨String.ext h1, String.ext h3, String.ext h4⟩
  · intro h
    rw [h]

/-- Witness for C8 at concrete bar-free findings: distinct containers give
distinct keys, so the equivalence specialises to a falsifiable instance. -/
theorem finding_key_inj_witness :
    (Finding.key { type := "MISSING_BUCKET", bucket := "assets", pfx := "" } =
      Finding.key { type := "MISSING_BUCKET", bucket := "logs", pfx := "" }) ↔
    ({ type := "MISSING_BUCKET", bucket := "assets", pfx := "" } : Finding) =
      { type := "MISSING_BUCKET", bucket := "logs", pfx := "" } :=
  finding_key_inj
    { type := "MISSING_BUCKET", bucket := "assets", pfx := "" }
    { type := "MISSING_BUCKET", bucket := "logs", pfx := "" }
    (by decide) (by decide)

/-! ## C5 — no referenced bucket is dropped from the metadata map -/

/-- A formatted error for a present cause is never the empty string. -/
theorem formatError_ne_empty (operation resource e : String) :
    formatError operation resource (some e) ≠ "" := by
  unfold formatError
  split
  all_goals try split
  all_goals try split
  all_goals try split
  all_goals intro h
  all_goals first
  | exact absurd ‹some e = none› (by simp)
  | (have hl := congrArg String.length h
     simp only [String.length_append] at hl
     have h12 : (" failed for " : String).length = 12 := rfl
     have h0 : ("" : String).length = 0 := rfl
     omega)

/-- Membership in the deduplicated list. -/
theorem mem_dedupAcc (b : String) :
    ∀ (l seen : List String),
    (b ∈ dedupAcc seen l ↔ (b ∈ l ∧ ¬ b ∈ seen)) := by
  intro l
  induction l with
  | nil => intro seen; simp [dedupAcc]
  | cons x xs ih =>
    intro seen
    by_cases hx : seen.contains x
    · rw [dedupAcc, if_pos hx]
      have hxm : x ∈ seen := by
        simpa [List.contains] using List.mem_of_elem_eq_true hx
      rw [ih]
      constructor
      · exact fun h => ⟨List.mem_cons_of_mem x h.1, h.2⟩
      · rintro ⟨h1, h2⟩
        rcases List.mem_cons.mp h1 with hbx | hbxs
        · exact absurd (by rw [hbx]; exact hxm) h2
        · exact ⟨hbxs, h2⟩
    · rw [dedupAcc, if_neg hx]
      have hxm : ¬ x ∈ seen := fun hm =>
        hx (by simpa [List.contains] using List.elem_eq_true_of_mem hm)
      rw [List.mem_cons, ih]
      constructor
      · rintro (hbx | ⟨h1, h2⟩)
        · refine ⟨List.mem_cons.mpr (Or.inl hbx), fun hm => ?_⟩
          rw [hbx] at hm
          exact hxm hm
        · exact ⟨List.mem_cons_of_mem x h1,
            fun hm => h2 (List.mem_cons_of_mem x hm)⟩
      · rintro ⟨h1, h2⟩
        by_cases hbx : b = x
        · exact Or.inl hbx
        · rcases List.mem_cons.mp h1 with hbx2 | hbxs
          · exact absurd hbx2 hbx
          · refine Or.inr ⟨hbxs, fun hm => ?_⟩
            rcases List.mem_cons.mp hm with hbx3 | hbs
            · exact hbx hbx3
            · exact h2 hbs

/-- The deduplicated list has no duplicates. -/
theorem nodup_dedupAcc : ∀ (l seen : List String), (dedupAcc seen l).Nodup := by
  intro l
  induction l with
  | nil => intro seen; simp [dedupAcc]
  | cons x xs ih =>
    intro seen
    by_cases hx : seen.contains x
    · rw [dedupAcc, if_pos hx]; exact ih seen
    · rw [dedupAcc, if_neg hx]
      refine List.nodup_cons.mpr ⟨fun hm => ?_, ih (x :: seen)⟩
      exact ((mem_dedupAcc x xs (x :: seen)).mp hm).2 (List.mem_cons_self x seen)

/-- Updating every name of a nodup key list replaces exactly the paired
values, leaving any disjoint leading segment untouched. -/
theorem foldl_updateAssoc (f g : String → BucketInfo) :
    ∀ (names : List String) (pre : List (String × BucketInfo)),
    names.Nodup → (∀ b ∈ names, ∀ kv ∈ pre, kv.1 ≠ b) →
    names.foldl (fun m b => updateAssoc m b (f b))
        (pre ++ names.map (fun b => (b, g b))) =
      pre ++ names.map (fun b => (b, f b)) := by
  intro names
  induction names with
  | nil => intro pre _ _; simp
  | cons x xs ih =>
    intro pre hnd hpre
    have hxnotxs : ¬ x ∈ xs := (List.nodup_cons.mp hnd).1
    have hxsnd : xs.Nodup := (List.nodup_cons.mp hnd).2
    rw [List.map_cons, List.foldl_cons]
    have hupd : updateAssoc (pre ++ (x, g x) :: xs.map (fun b => (b, g b)))
        x (f x) = (pre ++ [(x, f x)]) ++ xs.map (fun b => (b, g b)) := by
      unfold updateAssoc
      rw [List.map_append, List.map_cons]
      have hpremap : pre.map (fun kv => if kv.1 == x then (x, f x) else kv)
          = pre := by
        conv_rhs => rw [← List.map_id pre]
        refine List.map_congr_left (fun kv hkv => ?_)
        have : (kv.1 == x) = false :=
          beq_eq_false_iff_ne.mpr (hpre x (List.mem_cons_self x xs) kv hkv)
        simp [this]
      have hxsmap : (xs.map (fun b => (b, g b))).map
          (fun kv => if kv.1 == x then (x, f x) else kv)
          = xs.map (fun b => (b, g b)) := by
        rw [List.map_map]
        refine List.map_congr_left (fun b hb => ?_)
        have hne : (b == x) = false :=
          beq_eq_false_iff_ne.mpr (fun hbx => hxnotxs (hbx ▸ hb))
        show (if (b == x) = true then (x, f x) else (b, g b)) = (b, g b)
        rw [hne]
        simp
      rw [hpremap, hxsmap]
      simp
    have hside : ∀ b ∈ xs, ∀ kv ∈ pre ++ [(x, f x)], kv.1 ≠ b := by
      intro b hb kv hkv
      rcases List.mem_append.mp hkv with hk1 | hk2
      · exact hpre b (List.mem_cons_of_mem x hb) kv hk1
      · have hkvx : kv = (x, f x) := by simpa using hk2
        rw [hkvx]
        exact fun hxb => hxnotxs (by rw [show x = b from hxb]; exact hb)
    rw [hupd, ih (pre ++ [(x, f x)]) hxsnd hside]
    simp

/-- Lookup in a list of name-keyed pairs built by a map. -/
theorem lookup_map_pairs (f : String → BucketInfo) :
    ∀ (names : List String) (b : String),
    (names.map (fun x => (x, f x))).lookup b =
      if b ∈ names then some (f b) else none := by
  intro names
  induction names with
  | nil => intro b; simp [List.lookup]
  | cons x xs ih =>
    intro b
    rw [List.map_cons]
    by_cases hbx : b = x
    · simp [List.lookup, hbx]
    · have hbeq : (b == x) = false := beq_eq_false_iff_ne.mpr hbx
      simp [List.lookup, hbeq, ih, hbx]

/-- C5: when the reference-driven batch call succeeds, the key set of the
returned metadata map is exactly the set of bucket names occurring in the
reference list, and a bucket whose existence/region lookup failed is still
present — with `exists=false` and a non-empty error annotation — rather than
being dropped. -/
theorem inspectBuckets_keys (insp : Inspector) (w : S3World)
    (refs : List Reference) (m : List (String × BucketInfo))
    (hok : InspectBuckets insp w refs = Except.ok m) :
    (∀ b, (m.lookup b).isSome ↔ b ∈ refs.map (fun r => r.bucket)) ∧
    (∀ b e, b ∈ refs.map (fun r => r.bucket) →
      getBucketRegion w b = Except.error e →
      ∃ info, m.lookup b = some info ∧ info.existsFlag = false ∧
        info.error ≠ "") := by
  unfold InspectBuckets at hok
  cases hdr : determineRegions insp w with
  | error e0 => rw [hdr] at hok; cases hok
  | ok rs =>
    rw [hdr] at hok
    cases hlb : w.listBucketsResult with
    | error e0 => rw [hlb] at hok; cases hok
    | ok awsBuckets =>
      rw [hlb] at hok
      simp only [Except.ok.injEq] at hok
      have hnd : (dedupAcc [] (refs.map (fun r => r.bucket))).Nodup :=
        nodup_dedupAcc _ []
      have hm : m = (dedupAcc [] (refs.map (fun r => r.bucket))).map
          (fun b => (b, inspectBucket w b
            (refs.filter (fun r => r.bucket == b)))) := by
        rw [← hok]
        exact (foldl_updateAssoc _ _ _ [] hnd (by simp)).symm ▸ rfl
      subst hm
      have hmemkeys : ∀ b, b ∈ dedupAcc [] (refs.map (fun r => r.bucket)) ↔
          b ∈ refs.map (fun r => r.bucket) := by
        intro b
        rw [mem_dedupAcc]
        simp
      constructor
      · intro b
        rw [lookup_map_pairs]
        constructor
        · intro hs
          by_cases hb : b ∈ dedupAcc [] (refs.map (fun r => r.bucket))
          · exact (hmemkeys b).mp hb
          · rw [if_neg hb] at hs
            simp at hs
        · intro hbm
          rw [if_pos ((hmemkeys b).mpr hbm)]
          rfl
      · intro b e hb hreg
        have hb2 : b ∈ dedupAcc [] (refs.map (fun r => r.bucket)) :=
          (hmemkeys b).mpr hb
        rw [lookup_map_pairs, if_pos hb2]
        refine ⟨_, rfl, ?_, ?_⟩
        · unfold inspectBucket
          rw [hreg]
        · unfold inspectBucket
          rw [hreg]
          exact formatError_ne_empty "get bucket location" b e

/-- A world whose per-bucket location lookups all fail with "boom". -/
def worldBoom : S3World :=
  { listBucketsResult := Except.ok ["other"]
    getBucketLocation := fun _ => Except.error "boom"
    getVersioning := fun _ => Except.ok false
    getLifecycle := fun _ => Except.ok none
    getTagging := fun _ => Except.ok none
    listObjectsKeyCount := fun _ => Except.ok none
    listPrefixObjects := fun _ _ => Except.ok (none, none)
    listRegions := Except.ok ["us-east-1"] }

/-- The default-region inspector used by the C5 witness. -/
def inspectorDefault : Inspector :=
  { clientRegion := "us-east-1", concurrency := 10, regions := [],
    allRegions := false }

/-- A single reference to bucket `b1`. -/
def refsB1 : List Reference :=
  [{ bucket := "b1", pfx := "", versionID := "", file := "app.py", line := 1,
     context := "" }]

/-- The metadata map the inspector produces for `refsB1` under `worldBoom`. -/
def mapB1 : List (String × BucketInfo) :=
  [("b1",
    { name := "b1"
      existsFlag := false
      region := ""
      daysSinceActivity := 0
      ageInDays := 0
      versioningEnabled := false
      lifecycleRules := 0
      prefixes := []
      tags := none
      isEmpty := false
      objectCount := 0
      totalSize := 0
      totalVersionSize := 0
      versionCount := 0
      encryption := none
      publicAccess := none
      error := "get bucket location failed for b1: boom" })]

/-- Witness for C5: the lone referenced bucket whose location lookup failed
is still keyed in the successful batch result, with `exists=false` and a
non-empty error annotation. -/
theorem inspectBuckets_keys_witness :
    ((mapB1.lookup "b1").isSome ↔
      "b1" ∈ refsB1.map (fun r => r.bucket)) ∧
    (∃ info, mapB1.lookup "b1" = some info ∧ info.existsFlag = false ∧
      info.error ≠ "") := by
  have h := inspectBuckets_keys inspectorDefault worldBoom refsB1 mapB1
    rfl
  exact ⟨h.1 "b1", h.2 "b1" "boom" (by decide) rfl⟩

/-! ## C1 — determinism of the scan-mode analyzer -/

/-- The per-prefix summary loop appends exactly the missing/stale prefix
paths of the processed prefix analyses. -/
theorem foldl_prefixSummaryStep (bucket : String) :
    ∀ (ps : List PrefixAnalysis) (s : Summary),
    ps.foldl (prefixSummaryStep bucket) s =
      { s with
        missingPrefixes := s.missingPrefixes ++ ps.filterMap (fun p =>
          if p.status = Status.missingPrefix then
            some (bucket ++ "/" ++ p.pfx) else none)
        stalePrefixes := s.stalePrefixes ++ ps.filterMap (fun p =>
          if p.status = Status.stalePrefix then
            some (bucket ++ "/" ++ p.pfx) else none) } := by
  intro ps
  induction ps with
  | nil => intro s; simp
  | cons p rest ih =>
    intro s
    rw [List.foldl_cons, ih]
    unfold prefixSummaryStep
    cases hs : p.status <;>
      simp [hs, List.filterMap_cons, List.append_assoc]

/-- The scan-mode analyzer loop in closed form: the bucket map is the map of
per-bucket analyses and each summary list collects exactly the buckets (or
prefix paths) of the corresponding status, in iteration order. -/
theorem foldl_analyzeStep (refs : List Reference) (config : Config)
    (refB : String → Bool) :
    ∀ (l : List (String × BucketInfo)) (acc : Result),
    l.foldl (analyzeStep refs config refB) acc =
      { summary :=
          { totalBuckets := acc.summary.totalBuckets + l.length
            okBuckets := acc.summary.okBuckets + l.countP (fun bi =>
              (analyzeBucket bi.1 bi.2 refs config refB).status == Status.ok)
            missingBuckets := acc.summary.missingBuckets ++
              l.filterMap (fun bi =>
                if (analyzeBucket bi.1 bi.2 refs config refB).status =
                    Status.missingBucket then some bi.1 else none)
            unusedBuckets := acc.summary.unusedBuckets ++
              l.filterMap (fun bi =>
                if (analyzeBucket bi.1 bi.2 refs config refB).status =
                    Status.unusedBucket then some bi.1 else none)
            missingPrefixes := acc.summary.missingPrefixes ++
              l.flatMap (fun bi =>
                (analyzeBucket bi.1 bi.2 refs config refB).prefixes.filterMap
                  (fun p => if p.status = Status.missingPrefix then
                    some (bi.1 ++ "/" ++ p.pfx) else none))
            stalePrefixes := acc.summary.stalePrefixes ++
              l.flatMap (fun bi =>
                (analyzeBucket bi.1 bi.2 refs config refB).prefixes.filterMap
                  (fun p => if p.status = Status.stalePrefix then
                    some (bi.1 ++ "/" ++ p.pfx) else none))
            versionSprawl := acc.summary.versionSprawl ++
              l.filterMap (fun bi =>
                if (analyzeBucket bi.1 bi.2 refs config refB).status =
                    Status.versionSprawl then some bi.1 else none)
            lifecycleMisconfig := acc.summary.lifecycleMisconfig ++
              l.filterMap (fun bi =>
                if (analyzeBucket bi.1 bi.2 refs config refB).status =
                    Status.lifecycleMisconfig then some bi.1 else none) }
        buckets := acc.buckets ++ l.map (fun bi =>
          (bi.1, analyzeBucket bi.1 bi.2 refs config refB)) } := by
  intro l
  induction l with
  | nil => intro acc; simp
  | cons bi rest ih =>
    intro acc
    rw [List.foldl_cons, ih]
    simp only [analyzeStep]
    rw [foldl_prefixSummaryStep]
    cases hs : (analyzeBucket bi.1 bi.2 refs config refB).status <;>
      simp [hs, List.filterMap_cons, List.countP_cons, List.flatMap_cons,
        List.append_assoc, Nat.add_assoc, Nat.add_comm, Nat.add_left_comm]

/-- `Analyze` in closed form, from the empty accumulator. -/
theorem Analyze_eq (refs : List Reference)
    (l : List (String × BucketInfo)) (config : Config) :
    Analyze refs l config =
      { summary :=
          { totalBuckets := l.length
            okBuckets := l.countP (fun bi =>
              (analyzeBucket bi.1 bi.2 refs config
                (fun b => refs.any (fun r => r.bucket == b))).status ==
                Status.ok)
            missingBuckets := l.filterMap (fun bi =>
              if (analyzeBucket bi.1 bi.2 refs config
                  (fun b => refs.any (fun r => r.bucket == b))).status =
                  Status.missingBucket then some bi.1 else none)
            unusedBuckets := l.filterMap (fun bi =>
              if (analyzeBucket bi.1 bi.2 refs config
                  (fun b => refs.any (fun r => r.bucket == b))).status =
                  Status.unusedBucket then some bi.1 else none)
            missingPrefixes := l.flatMap (fun bi =>
              (analyzeBucket bi.1 bi.2 refs config
                (fun b => refs.any (fun r => r.bucket == b))).prefixes.filterMap
                (fun p => if p.status = Status.missingPrefix then
                  some (bi.1 ++ "/" ++ p.pfx) else none))
            stalePrefixes := l.flatMap (fun bi =>
              (analyzeBucket bi.1 bi.2 refs config
                (fun b => refs.any (fun r => r.bucket == b))).prefixes.filterMap
                (fun p => if p.status = Status.stalePrefix then
                  some (bi.1 ++ "/" ++ p.pfx) else none))
            versionSprawl := l.filterMap (fun bi =>
              if (analyzeBucket bi.1 bi.2 refs config
                  (fun b => refs.any (fun r => r.bucket == b))).status =
                  Status.versionSprawl then some bi.1 else none)
            lifecycleMisconfig := l.filterMap (fun bi =>
              if (analyzeBucket bi.1 bi.2 refs config
                  (fun b => refs.any (fun r => r.bucket == b))).status =
                  Status.lifecycleMisconfig then some bi.1 else none) }
        buckets := l.map (fun bi =>
          (bi.1, analyzeBucket bi.1 bi.2 refs config
            (fun b => refs.any (fun r => r.bucket == b)))) } := by
  unfold Analyze
  rw [foldl_analyzeStep]
  simp

/-- The two-bucket metadata map in one iteration order. -/
def listAB : List (String × BucketInfo) :=
  [("a", { bucketInfoZero with name := "a" }),
   ("b", { bucketInfoZero with name := "b" })]

/-- The same two-bucket metadata map in the other iteration order. -/
def listBA : List (String × BucketInfo) :=
  [("b", { bucketInfoZero with name := "b" }),
   ("a", { bucketInfoZero with name := "a" })]

/-- Counterexample to C1 as stated: the same metadata map (a permutation
with distinct keys) visited in two different iteration orders — exactly what
two Go `range` passes may do — yields outputs that are not byte-identical:
the summary's missing-bucket list comes out in a different order. -/
theorem analyze_order_counterexample :
    listAB.Perm listBA ∧ (listAB.map Prod.fst).Nodup ∧
    Analyze [] listAB configZero ≠ Analyze [] listBA configZero := by
  refine ⟨List.Perm.swap _ _ _, by decide, fun h => ?_⟩
  have h2 := congrArg (fun r => r.summary.missingBuckets) h
  exact absurd h2 (by decide)

/-- C1 (amended): the scan-mode analyzer is deterministic up to the map
iteration order — for any two iteration orders of the identical metadata
map, the per-bucket analyses are the same map (a permutation of pairs), the
summary counters are equal, and every summary bucket-name and prefix-path
list is a permutation of its counterpart; byte-identical output holds
whenever the iteration order coincides. -/
theorem analyze_perm (refs : List Reference) (config : Config)
    (l1 l2 : List (String × BucketInfo)) (hperm : l1.Perm l2) :
    ((Analyze refs l1 config).buckets).Perm
      ((Analyze refs l2 config).buckets) ∧
    (Analyze refs l1 config).summary.totalBuckets =
      (Analyze refs l2 config).summary.totalBuckets ∧
    (Analyze refs l1 config).summary.okBuckets =
      (Analyze refs l2 config).summary.okBuckets ∧
    ((Analyze refs l1 config).summary.missingBuckets).Perm
      ((Analyze refs l2 config).summary.missingBuckets) ∧
    ((Analyze refs l1 config).summary.unusedBuckets).Perm
      ((Analyze refs l2 config).summary.unusedBuckets) ∧
    ((Analyze refs l1 config).summary.missingPrefixes).Perm
      ((Analyze refs l2 config).summary.missingPrefixes) ∧
    ((Analyze refs l1 config).summary.stalePrefixes).Perm
      ((Analyze refs l2 config).summary.stalePrefixes) ∧
    ((Analyze refs l1 config).summary.versionSprawl).Perm
      ((Analyze refs l2 config).summary.versionSprawl) ∧
    ((Analyze refs l1 config).summary.lifecycleMisconfig).Perm
      ((Analyze refs l2 config).summary.lifecycleMisconfig) := by
  rw [Analyze_eq, Analyze_eq]
  exact ⟨hperm.map _, by simp [hperm.length_eq], by simp [hperm.countP_eq],
    hperm.filterMap _, hperm.filterMap _, hperm.flatMap_right _,
    hperm.flatMap_right _, hperm.filterMap _, hperm.filterMap _⟩

/-- Witness for C1 (amended) at the two concrete iteration orders of the
two-bucket map. -/
theorem analyze_perm_witness :
    ((Analyze [] listAB configZero).buckets).Perm
      ((Analyze [] listBA configZero).buckets) ∧
    (Analyze [] listAB configZero).summary.totalBuckets =
      (Analyze [] listBA configZero).summary.totalBuckets ∧
    (Analyze [] listAB configZero).summary.okBuckets =
      (Analyze [] listBA configZero).summary.okBuckets ∧
    ((Analyze [] listAB configZero).summary.missingBuckets).Perm
      ((Analyze [] listBA configZero).summary.missingBuckets) ∧
    ((Analyze [] listAB configZero).summary.unusedBuckets).Perm
      ((Analyze [] listBA configZero).summary.unusedBuckets) ∧
    ((Analyze [] listAB configZero).summary.missingPrefixes).Perm
      ((Analyze [] listBA configZero).summary.missingPrefixes) ∧
    ((Analyze [] listAB configZero).summary.stalePrefixes).Perm
      ((Analyze [] listBA configZero).summary.stalePrefixes) ∧
    ((Analyze [] listAB configZero).summary.versionSprawl).Perm
      ((Analyze [] listBA configZero).summary.versionSprawl) ∧
    ((Analyze [] listAB configZero).summary.lifecycleMisconfig).Perm
      ((Analyze [] listBA configZero).summary.lifecycleMisconfig) :=
  analyze_perm [] configZero listAB listBA (List.Perm.swap _ _ _)

end S3Spectre
